import Mathlib

/-!
Verification of the fraud-detector feature/model engine and pipeline glue.

The repository's core class `FraudDetector` (fraud_detector/model.py) is not
present in the source tree; only its unit/integration tests and its pipeline
callers are.  Its behaviour is therefore modelled from the specification
(spec.md §3, §4, §7, §8), with the concrete column-naming constants taken from
the unit tests that exercise it.  The pipeline glue that IS present —
`setup_monitoring_op` (monitoring_op.py) and `_enable_caching`
(submit_pipeline.py) — is embedded directly from the source.

Conventions: monetary amounts and probabilities are rationals, timestamps are
integers (seconds), and a "day" is 86400 seconds.  Tables are lists of rows.
-/

namespace FraudSpec

/-- One day, in the integer timestamp unit (seconds). -/
def dayLen : Int := 86400

/-- Modelled from the spec: a transaction record (§3) with attributes `tx_id`,
`tx_ts`, `customer_id`, `terminal_id`, `tx_amount`, and the optional label
`tx_fraud` (present only in labeled data). -/
structure Txn where
  tx_id : Nat
  tx_ts : Int
  customer_id : Nat
  terminal_id : Nat
  tx_amount : Rat
  tx_fraud : Option Bool
deriving Repr, DecidableEq

/-- Modelled from the spec: the two grouping keys {customer, terminal} (§3). -/
inductive GroupKey
  | customer
  | terminal
deriving Repr, DecidableEq

/-- The grouping-key value of a transaction under a grouping key. -/
def GroupKey.keyOf : GroupKey → Txn → Nat
  | .customer, r => r.customer_id
  | .terminal, r => r.terminal_id

/-- The naming-scheme fragment for a grouping key. -/
def GroupKey.gname : GroupKey → String
  | .customer => "customer"
  | .terminal => "terminal"

/-- The ordered list of grouping keys used by feature engineering. -/
def groupKeys : List GroupKey := [.customer, .terminal]

/-- Modelled from the spec: the three aggregate functions count, average, max
(§3), with the naming-scheme fragments `count`/`avg`/`max` taken from the unit
tests (test_compute_features_rolling_values). -/
inductive Agg
  | count
  | avg
  | amax
deriving Repr, DecidableEq

/-- The naming-scheme fragment for an aggregate function. -/
def Agg.aname : Agg → String
  | .count => "count"
  | .avg => "avg"
  | .amax => "max"

/-- The ordered list of aggregate functions. -/
def aggs : List Agg := [.count, .avg, .amax]

/-- Modelled from the spec: the column name `{agg}_tx_amount_{window}d_{group}`
(§3). -/
def colName (a : Agg) (w : Nat) (g : GroupKey) : String :=
  a.aname ++ "_tx_amount_" ++ toString w ++ "d_" ++ g.gname

/-- Modelled from the spec: the default four windows 1/7/30/90 days (§3). -/
def defaultWindows : List Nat := [1, 7, 30, 90]

namespace FraudDetector

/-- Modelled from the spec: `FraudDetector.feature_columns` — the feature-column
list derived programmatically from {grouping keys} × {windows} × {aggregate
functions}, plus the raw `tx_amount` column itself, in a deterministic order
(§4.1). -/
def feature_columns (windows : List Nat := defaultWindows) : List String :=
  "tx_amount" ::
    (groupKeys.flatMap fun g => windows.flatMap fun w => aggs.map fun a => colName a w g)

/-- Modelled from the spec: membership of a candidate prior row `s` in the
rolling window of row `r` — same grouping key, timestamp strictly before `r`'s,
and within the trailing `w`-day interval ending at (but not including) `r`'s
timestamp (§3, §4.1). -/
def inWindow (g : GroupKey) (w : Nat) (r s : Txn) : Bool :=
  (g.keyOf s == g.keyOf r)
    && decide (s.tx_ts < r.tx_ts)
    && decide (r.tx_ts - (w : Int) * dayLen ≤ s.tx_ts)

/-- The `tx_amount` values of the rows of `df` inside row `r`'s window. -/
def windowAmounts (df : List Txn) (g : GroupKey) (w : Nat) (r : Txn) : List Rat :=
  (df.filter (inWindow g w r)).map Txn.tx_amount

/-- Modelled from the spec: the raw aggregate over a window's amounts; mean and
max of an empty window are missing (NaN in the reference implementation), count
of an empty window is 0 (§4.1). -/
def aggRaw : Agg → List Rat → Option Rat
  | .count, xs => some (xs.length : Rat)
  | .avg, xs => if xs.isEmpty then none else some (xs.sum / (xs.length : Rat))
  | .amax, xs => xs.max?

/-- Modelled from the spec: missing results at the start of a group's history
are filled with 0 — zero-fill for absence of prior history, not exclusion
(§4.1). -/
def fillZero (x : Option Rat) : Rat := x.getD 0

/-- The rolling-aggregate feature cells of one row: for every grouping key,
window, and aggregate, the (column name, zero-filled value) pair. -/
def rowFeats (df : List Txn) (ws : List Nat) (r : Txn) : List (String × Rat) :=
  groupKeys.flatMap fun g => ws.flatMap fun w => aggs.map fun a =>
    (colName a w g, fillZero (aggRaw a (windowAmounts df g w r)))

/-- An output row of feature computation: the unchanged input record augmented
with the rolling-aggregate cells. -/
structure FeatTxn where
  base : Txn
  feats : List (String × Rat)
deriving Repr, DecidableEq

/-- Modelled from the spec: `FraudDetector.compute_features` — produce the same
records, in the original order, augmented with rolling aggregate columns; the
per-row window contains only prior rows of the same grouping key (§4.1). -/
def compute_features (df : List Txn) (ws : List Nat := defaultWindows) : List FeatTxn :=
  df.map fun r => ⟨r, rowFeats df ws r⟩

/-- Look a feature column up in an output row: the raw `tx_amount` column reads
the record's own amount, every other column reads the attached cells. -/
def featVal (r : FeatTxn) (c : String) : Option Rat :=
  if c = "tx_amount" then some r.base.tx_amount else r.feats.lookup c

end FraudDetector

/-- Modelled from the spec: a feature-table row as consumed by split / train /
evaluate / predict — a timestamp, named numeric columns, and an optional fraud
label (§3, §4.2–§4.5).  Extra columns beyond the declared feature set are
simply additional entries of `cols`. -/
structure FeatRow where
  tx_ts : Int
  cols : List (String × Rat)
  tx_fraud : Option Bool
deriving Repr, DecidableEq

/-- Modelled from the spec: a fitted classifier is used only through its
positive-class probability, a value in [0,1] (§4.5, glossary). -/
def Scorer : Type := { f : List Rat → Rat // ∀ x, 0 ≤ f x ∧ f x ≤ 1 }

/-- Modelled from the spec: the model artifact — a fitted classifier plus the
ordered list of feature column names it was trained on (§3). -/
structure Model where
  scorer : Scorer
  feature_cols : List String

/-- Modelled from the spec: classifier hyperparameters with their documented
defaults (§4.3). -/
structure XgbParams where
  max_depth : Nat := 6
  n_estimators : Nat := 200
  learning_rate : Rat := 1/10
  scale_pos_weight : Rat := 10
  objective : String := "binary:logistic"
  eval_metric : String := "auc"

/-- Modelled from the spec: the component instance — its one mutable field is
the current model, absent until a train or load succeeds (§4.3, §5). -/
structure FraudDetector where
  model : Option Model

/-- Modelled from the spec: the metrics record returned by evaluation (§3,
§4.4); the confusion matrix is ((tn, fp), (fn, tp)), rows = true class,
columns = predicted class, order legitimate-then-fraud. -/
structure Metrics where
  auc_roc : Rat
  precision_fraud : Rat
  recall_fraud : Rat
  f1_fraud : Rat
  accuracy : Rat
  test_samples : Nat
  fraud_rate : Rat
  confusion_matrix : (Nat × Nat) × (Nat × Nat)

/-- Row-by-row effectful map: stops at the first error, otherwise collects the
results in order. -/
def mapE (f : α → Except String β) : List α → Except String (List β)
  | [] => .ok []
  | x :: xs =>
    match f x with
    | .error e => .error e
    | .ok y =>
      match mapE f xs with
      | .error e => .error e
      | .ok ys => .ok (y :: ys)

/-- Extract the values of the given columns from a row's cells; `none` when a
required column is missing. -/
def lookupAll (names : List String) (cols : List (String × Rat)) : Option (List Rat) :=
  match names with
  | [] => some []
  | c :: cs =>
    match cols.lookup c with
    | none => none
    | some v =>
      match lookupAll cs cols with
      | none => none
      | some vs => some (v :: vs)

namespace FraudDetector

/-- A fresh instance: no train or load has succeeded yet. -/
def new : FraudDetector := ⟨none⟩

/-- Modelled from the spec: the sequencing error raised when evaluate / predict
/ save is invoked before a model exists (§7). -/
def noModelErr : String := "No model. Train or load a model first."

/-- Modelled from the spec: `FraudDetector.split` — partition a feature table
by a single cutoff date: train = all rows with timestamp strictly before the
cutoff, test = all rows with timestamp greater than or equal to it; no
randomization (§4.2). -/
def split (df : List FeatRow) (cutoff : Int) : List FeatRow × List FeatRow :=
  (df.filter fun r => decide (r.tx_ts < cutoff),
   df.filter fun r => decide (cutoff ≤ r.tx_ts))

/-- Modelled from the spec: `FraudDetector.train` — fit a classifier (the
gradient-boosting library is an external collaborator, passed as `fit`) on the
declared feature columns against the fraud label, and store the fitted model
together with the feature-column list on the instance (§4.3). -/
def train (_fd : FraudDetector) (fit : List (List Rat × Bool) → XgbParams → Scorer)
    (df : List FeatRow) (params : XgbParams := {})
    (cols : List String := feature_columns) : Except String FraudDetector :=
  match mapE (fun r =>
      match lookupAll cols r.cols, r.tx_fraud with
      | some xs, some y => .ok (xs, y)
      | none, _ => .error "Missing feature columns"
      | _, none => .error "Missing tx_fraud label") df with
  | .error e => .error e
  | .ok data => .ok ⟨some ⟨fit data params, cols⟩⟩

/-- A scored record: the input row extended with `fraud_probability`,
`fraud_prediction`, `scored_at` (§3). -/
structure Scored where
  row : FeatRow
  fraud_probability : Rat
  fraud_prediction : Nat
  scored_at : Int
deriving Repr, DecidableEq

/-- Modelled from the spec: `FraudDetector.predict` — for each input row,
produce the model's positive-class probability and the thresholded prediction
(probability ≥ 0.5 → 1, else 0) plus the scoring timestamp; labels are not
required, extra columns are tolerated, missing feature columns fail clearly
(§4.5). -/
def predict (fd : FraudDetector) (df : List FeatRow) (now : Int)
    (cols : Option (List String) := none) : Except String (List Scored) :=
  match fd.model with
  | none => .error noModelErr
  | some m =>
    let fcols := cols.getD m.feature_cols
    mapE (fun r =>
      match lookupAll fcols r.cols with
      | none => .error "Missing feature columns"
      | some xs =>
        let p := m.scorer.val xs
        .ok ⟨r, p, if 1/2 ≤ p then 1 else 0, now⟩) df

end FraudDetector

/-- The number of elements of a list satisfying a Boolean predicate. -/
def countIf (p : α → Bool) (l : List α) : Nat := (l.filter p).length

/-- Mann–Whitney pair score: 1 when the fraud score beats the legitimate one,
1/2 on a tie, 0 otherwise. -/
def pairScore (p q : Rat) : Rat := if q < p then 1 else if q = p then (1 : Rat)/2 else 0

/-- Rank-based AUC-ROC over the positive-class scores of the fraud rows versus
those of the legitimate rows. -/
def aucOf (pos neg : List Rat) : Rat :=
  (pos.map fun p => (neg.map (pairScore p)).sum).sum
    / ((pos.length : Rat) * (neg.length : Rat))

namespace FraudDetector

/-- The metrics record computed from per-row (probability, true label) pairs,
with the 0.5 threshold (§4.4). -/
def metricsOf (sc : List (Rat × Bool)) : Metrics :=
  let predPos : Rat × Bool → Bool := fun s => decide ((1 : Rat)/2 ≤ s.1)
  let tp := countIf (fun s => predPos s && s.2) sc
  let fp := countIf (fun s => predPos s && !s.2) sc
  let fn := countIf (fun s => !predPos s && s.2) sc
  let tn := countIf (fun s => !predPos s && !s.2) sc
  let n := sc.length
  let prec := (tp : Rat) / ((tp : Rat) + (fp : Rat))
  let recl := (tp : Rat) / ((tp : Rat) + (fn : Rat))
  { auc_roc := aucOf ((sc.filter (·.2)).map (·.1)) ((sc.filter (!·.2)).map (·.1))
    precision_fraud := prec
    recall_fraud := recl
    f1_fraud := 2 * prec * recl / (prec + recl)
    accuracy := ((tp : Rat) + (tn : Rat)) / (n : Rat)
    test_samples := n
    fraud_rate := (countIf (·.2) sc : Rat) / (n : Rat)
    confusion_matrix := ((tn, fp), (fn, tp)) }

/-- Modelled from the spec: `FraudDetector.evaluate` — score the fitted model
on a labeled held-out subset and return the metrics record; fails if called
before training or model loading (§4.4). -/
def evaluate (fd : FraudDetector) (df : List FeatRow)
    (cols : Option (List String) := none) : Except String Metrics :=
  match fd.model with
  | none => .error noModelErr
  | some m =>
    let fcols := cols.getD m.feature_cols
    match mapE (fun r =>
        match lookupAll fcols r.cols, r.tx_fraud with
        | some xs, some y => .ok (m.scorer.val xs, y)
        | none, _ => .error "Missing feature columns"
        | _, none => .error "Missing tx_fraud label") df with
    | .error e => .error e
    | .ok sc => .ok (metricsOf sc)

end FraudDetector

/-- A flat model of the filesystem seen by persistence: the set of existing
directories and the model files, keyed by path. -/
structure FileSystem where
  dirs : List String
  files : List (String × Model)

/-- The parent directory of a path: everything before the last slash. -/
def parentDir (path : String) : String :=
  String.intercalate "/" ((path.splitOn "/").dropLast)

/-- Create a directory if it does not already exist. -/
def makedirs (d : String) (ds : List String) : List String :=
  if d ∈ ds then ds else d :: ds

namespace FraudDetector

/-- Modelled from the spec: `FraudDetector.save_model` — serialize the fitted
model (classifier plus feature-column list) as a single file at the given
path, creating parent directories as needed; a sequencing error before a model
exists (§4.6, §7). -/
def save_model (fd : FraudDetector) (path : String) (fs : FileSystem) :
    Except String FileSystem :=
  match fd.model with
  | none => .error noModelErr
  | some m =>
    .ok ⟨makedirs (parentDir path) fs.dirs,
         (path, m) :: fs.files.filter fun f => !(f.1 == path)⟩

/-- Modelled from the spec: `FraudDetector.load_model` — restore the state
saved at the given path so that subsequent evaluate/predict calls behave
identically to the pre-save instance (§4.6). -/
def load_model (_fd : FraudDetector) (fs : FileSystem) (path : String) :
    Except String FraudDetector :=
  match fs.files.lookup path with
  | none => .error ("Model file not found: " ++ path)
  | some m => .ok ⟨some m⟩

end FraudDetector

/-- The outcome of the monitoring-setup body (everything inside the `try`
block of `setup_monitoring_op`): either the created monitor's resource name,
or an exception raised by some step of the setup. -/
inductive MonitoringOutcome
  | ok (monitorName : String)
  | exn (msg : String)
deriving Repr, DecidableEq

/-- Embedded from src/fraud_detector/pipelines/components/monitoring_op.py:
`setup_monitoring_op` returns `SKIPPED:<status>` without touching the
monitoring API when the model was not registered, otherwise runs the setup
body under a catch-all that converts any exception into the string
`ERROR:monitoring_setup_failed`. -/
def setup_monitoring_op (model_resource_name : String)
    (setup : MonitoringOutcome) : String :=
  if model_resource_name = "NOT_REGISTERED" ∨ model_resource_name = "LOCAL_ONLY" then
    "SKIPPED:" ++ model_resource_name
  else
    match setup with
    | .ok n => n
    | .exn _ => "ERROR:monitoring_setup_failed"

/-- Python's str.lower, character by character. -/
def strLower (s : String) : String := String.mk (s.data.map Char.toLower)

/-- Embedded from src/fraud_detector/pipelines/submit_pipeline.py:
`_enable_caching` — caching enabled by default, disabled for prod.  The
`ENVIRONMENT` variable (absent ↦ "dev") is lowercased and compared to "prod";
otherwise the config's `enable_caching` entry (absent ↦ true) decides. -/
def enable_caching_flag (environment : Option String)
    (config_enable_caching : Option Bool) : Bool :=
  if strLower (environment.getD "dev") = "prod" then false
  else config_enable_caching.getD true

/-- Agreement of two parallel table rows for the leakage property at cutoff
`t`: identical timestamp and grouping-key fields, and identical amount as soon
as the row lies strictly before `t` — i.e. only amounts of rows at or after
`t` may differ between the two runs. -/
def AgreePast (t : Int) (r1 r2 : Txn) : Prop :=
  r1.tx_ts = r2.tx_ts ∧ r1.customer_id = r2.customer_id ∧
    r1.terminal_id = r2.terminal_id ∧ (r1.tx_ts < t → r1.tx_amount = r2.tx_amount)

/-- A constant classifier answering probability one half, for concrete runs. -/
def scorerHalf : Scorer :=
  ⟨fun _ => (1 : Rat)/2, fun _ => by norm_num⟩

/-- A trivial external fitting procedure, for concrete runs. -/
def fitHalf : List (List Rat × Bool) → XgbParams → Scorer := fun _ _ => scorerHalf

/-- A concrete model over the single raw feature column, for concrete runs. -/
def modelHalf : Model := ⟨scorerHalf, ["tx_amount"]⟩

/-- A concrete feature row carrying the raw feature column, for concrete runs. -/
def rowA : FeatRow := ⟨0, [("tx_amount", 25)], none⟩

/-- A concrete transaction, for concrete runs. -/
def txA : Txn := ⟨0, 0, 1, 100, 10, none⟩

/-- Concrete two-run leakage fixture: an earlier transaction, identical in both
runs. -/
def txP : Txn := ⟨0, 0, 1, 100, 10, none⟩

/-- Concrete two-run leakage fixture: the observed row, first run. -/
def txR : Txn := ⟨1, 3600, 1, 100, 20, none⟩

/-- Concrete two-run leakage fixture: the observed row with its amount changed,
second run. -/
def txR2 : Txn := ⟨1, 3600, 1, 100, 50, none⟩

/-- Concrete two-run leakage fixture: a later transaction, first run. -/
def txF : Txn := ⟨2, 7200, 1, 100, 30, none⟩

/-- Concrete two-run leakage fixture: the later transaction with its amount
changed, second run. -/
def txF2 : Txn := ⟨2, 7200, 1, 100, 999, none⟩

/-! Helper lemmas. -/

theorem aggs_length_flatMap (ws : List Nat) (g : GroupKey) (f : Agg → Nat → GroupKey → α) :
    (ws.flatMap fun w => aggs.map fun a => f a w g).length = 3 * ws.length := by
  induction ws with
  | nil => rfl
  | cons w ws ih =>
    rw [List.flatMap_cons, List.length_append, ih]
    simp only [aggs, List.map_cons, List.map_nil, List.length_cons, List.length_nil]
    omega

theorem rowFeats_names (df : List Txn) (ws : List Nat) (r : Txn) :
    (FraudDetector.rowFeats df ws r).map Prod.fst =
      groupKeys.flatMap fun g => ws.flatMap fun w => aggs.map fun a => colName a w g := by
  simp [FraudDetector.rowFeats, List.map_flatMap, List.map_map, Function.comp_def]

/-! Claim theorems. -/

/-- C2: `FraudDetector.split` at cutoff `D` puts exactly the rows with
`tx_ts < D` into the train partition and exactly those with `tx_ts ≥ D` into
the test partition; the two partitions together are a permutation of the input
(each input row kept exactly once, counting multiplicity), and no row lands in
both partitions. -/
theorem split_temporal_partition (df : List FeatRow) (D : Int) :
    (∀ r ∈ (FraudDetector.split df D).1, r.tx_ts < D) ∧
    (∀ r ∈ (FraudDetector.split df D).2, D ≤ r.tx_ts) ∧
    ((FraudDetector.split df D).1 ++ (FraudDetector.split df D).2).Perm df ∧
    (∀ r : FeatRow, ((FraudDetector.split df D).1 ++ (FraudDetector.split df D).2).count r
      = df.count r) ∧
    (∀ r : FeatRow, ¬(r ∈ (FraudDetector.split df D).1 ∧ r ∈ (FraudDetector.split df D).2)) := by
  have hperm : ((FraudDetector.split df D).1 ++ (FraudDetector.split df D).2).Perm df := by
    have h := List.filter_append_perm (fun r : FeatRow => decide (r.tx_ts < D)) df
    have heq : (df.filter fun r : FeatRow => !decide (r.tx_ts < D))
        = df.filter fun r : FeatRow => decide (D ≤ r.tx_ts) := by
      apply List.filter_congr
      intro r _
      rw [← decide_not]
      exact decide_eq_decide.mpr not_lt
    rw [FraudDetector.split]
    rw [← heq]
    exact h
  refine ⟨?_, ?_, hperm, fun r => hperm.count_eq r, ?_⟩
  · intro r hr
    rw [FraudDetector.split] at hr
    simpa using (List.mem_filter.mp hr).2
  · intro r hr
    rw [FraudDetector.split] at hr
    simpa using (List.mem_filter.mp hr).2
  · rintro r ⟨h1, h2⟩
    rw [FraudDetector.split] at h1 h2
    have hlt : r.tx_ts < D := by simpa using (List.mem_filter.mp h1).2
    have hge : D ≤ r.tx_ts := by simpa using (List.mem_filter.mp h2).2
    exact absurd hlt (not_lt.mpr hge)

/-- C5: `FraudDetector.compute_features` returns exactly one output row per
input row, in the original input order, with the entire pre-existing record
(all original columns, label included) left unchanged in the `base` field; the
only modification is the attached rolling-aggregate cells. -/
theorem compute_features_preserves_rows (df : List Txn) (ws : List Nat) :
    (FraudDetector.compute_features df ws).length = df.length ∧
    (FraudDetector.compute_features df ws).map FraudDetector.FeatTxn.base = df := by
  constructor
  · simp [FraudDetector.compute_features]
  · simp [FraudDetector.compute_features, List.map_map, Function.comp_def]

/-- C3: `FraudDetector.feature_columns` on `W` windows is a deterministically
ordered list of 2 × W × 3 + 1 column names (raw `tx_amount` plus the
`{agg}_tx_amount_{window}d_{group}` scheme); 25 columns on the default
windows, 13 on windows [1, 7]; `compute_features` attaches exactly the same
column list at feature-generation time, and `train` with the default
column argument stores exactly this list on the fitted model for use at
score time. -/
theorem feature_columns_count_and_agreement :
    (∀ ws : List Nat, (FraudDetector.feature_columns ws).length = 2 * ws.length * 3 + 1) ∧
    (FraudDetector.feature_columns).length = 25 ∧
    (FraudDetector.feature_columns [1, 7]).length = 13 ∧
    (∀ (df : List Txn) (ws : List Nat) r, r ∈ FraudDetector.compute_features df ws →
      "tx_amount" :: r.feats.map Prod.fst = FraudDetector.feature_columns ws) ∧
    (∀ (fd : FraudDetector) (fit : List (List Rat × Bool) → XgbParams → Scorer)
        (df : List FeatRow) (params : XgbParams) (fd' : FraudDetector),
      FraudDetector.train fd fit df params = .ok fd' →
      ∃ m, fd'.model = some m ∧ m.feature_cols = FraudDetector.feature_columns) := by
  have hlen : ∀ ws : List Nat, (FraudDetector.feature_columns ws).length = 2 * ws.length * 3 + 1 := by
    intro ws
    rw [FraudDetector.feature_columns]
    simp only [groupKeys, List.flatMap_cons, List.flatMap_nil, List.append_nil,
      List.length_cons, List.length_append]
    rw [aggs_length_flatMap ws GroupKey.customer (fun a w g => colName a w g),
      aggs_length_flatMap ws GroupKey.terminal (fun a w g => colName a w g)]
    omega
  refine ⟨hlen, by simpa using hlen defaultWindows, by simpa using hlen [1, 7], ?_, ?_⟩
  · intro df ws r hr
    simp only [FraudDetector.compute_features, List.mem_map] at hr
    obtain ⟨x, _, rfl⟩ := hr
    rw [FraudDetector.feature_columns]
    simp [rowFeats_names]
  · intro fd fit df params fd' h
    rw [FraudDetector.train] at h
    split at h
    · exact absurd h (by simp)
    · simp only [Except.ok.injEq] at h
      exact ⟨_, by rw [← h], rfl⟩

/-- C8: on an instance on which no train or load has succeeded — the current
model field is absent, exactly as on a fresh instance — evaluate, predict, and
save_model each return the "no model" sequencing error to the caller instead
of producing a result. -/
theorem no_model_sequencing_error (fd : FraudDetector) (df : List FeatRow) (now : Int)
    (path : String) (fs : FileSystem) (h : fd.model = none) :
    FraudDetector.new.model = none ∧
    fd.evaluate df = .error FraudDetector.noModelErr ∧
    fd.predict df now = .error FraudDetector.noModelErr ∧
    fd.save_model path fs = .error FraudDetector.noModelErr := by
  refine ⟨rfl, ?_, ?_, ?_⟩ <;>
    simp [FraudDetector.evaluate, FraudDetector.predict, FraudDetector.save_model, h]

/-- C8 witness: a fresh detector, an empty table, and a concrete path. -/
theorem no_model_sequencing_error_witness :
    FraudDetector.new.model = none ∧
    FraudDetector.new.evaluate [] = .error FraudDetector.noModelErr ∧
    FraudDetector.new.predict [] 0 = .error FraudDetector.noModelErr ∧
    FraudDetector.new.save_model "models/model.joblib" ⟨[], []⟩
      = .error FraudDetector.noModelErr :=
  no_model_sequencing_error FraudDetector.new [] 0 "models/model.joblib" ⟨[], []⟩ rfl

/-- C9: `setup_monitoring_op` is a total function into status strings: on the
statuses NOT_REGISTERED and LOCAL_ONLY it returns "SKIPPED:" followed by the
status, independently of the monitoring-setup body (no API step is consulted);
otherwise an exception anywhere in the setup body yields exactly
"ERROR:monitoring_setup_failed", and a successful body yields the monitor's
resource name. -/
theorem setup_monitoring_op_status_contract (name : String) (setup : MonitoringOutcome) :
    ((name = "NOT_REGISTERED" ∨ name = "LOCAL_ONLY") →
      setup_monitoring_op name setup = "SKIPPED:" ++ name ∧
      ∀ other : MonitoringOutcome,
        setup_monitoring_op name setup = setup_monitoring_op name other) ∧
    (¬(name = "NOT_REGISTERED" ∨ name = "LOCAL_ONLY") →
      (∀ e, setup = .exn e → setup_monitoring_op name setup = "ERROR:monitoring_setup_failed") ∧
      (∀ n, setup = .ok n → setup_monitoring_op name setup = n)) := by
  constructor
  · intro h
    refine ⟨by simp [setup_monitoring_op, h], fun other => by simp [setup_monitoring_op, h]⟩
  · intro h
    constructor
    · rintro e rfl
      simp [setup_monitoring_op, h]
    · rintro n rfl
      simp [setup_monitoring_op, h]

/-- C9 witness: the skip status, a failing body, and a succeeding body. -/
theorem setup_monitoring_op_status_contract_witness :
    setup_monitoring_op "NOT_REGISTERED" (.exn "API error") = "SKIPPED:" ++ "NOT_REGISTERED" ∧
    setup_monitoring_op "projects/p/locations/l/models/1" (.exn "API error")
      = "ERROR:monitoring_setup_failed" ∧
    setup_monitoring_op "projects/p/locations/l/models/1" (.ok "modelMonitors/456")
      = "modelMonitors/456" :=
  ⟨((setup_monitoring_op_status_contract "NOT_REGISTERED" (.exn "API error")).1 (Or.inl rfl)).1,
   ((setup_monitoring_op_status_contract "projects/p/locations/l/models/1"
      (.exn "API error")).2 (by decide)).1 "API error" rfl,
   ((setup_monitoring_op_status_contract "projects/p/locations/l/models/1"
      (.ok "modelMonitors/456")).2 (by decide)).2 "modelMonitors/456" rfl⟩

/-- C10: `_enable_caching` returns false whenever the ENVIRONMENT variable
(defaulting to "dev" when unset) lowercases to "prod", regardless of the
config; otherwise it returns the config's `enable_caching` entry when present
and true when absent. -/
theorem enable_caching_prod_disabled (env : Option String) (cfg : Option Bool) :
    (strLower (env.getD "dev") = "prod" → enable_caching_flag env cfg = false) ∧
    (strLower (env.getD "dev") ≠ "prod" → enable_caching_flag env cfg = cfg.getD true) := by
  constructor
  · intro h
    simp [enable_caching_flag, h]
  · intro h
    simp [enable_caching_flag, h]

/-- C10 witness: an upper-case prod environment beats an explicit true config;
an unset environment defaults the flag to true; a dev environment exposes the
config value. -/
theorem enable_caching_prod_disabled_witness :
    enable_caching_flag (some "PROD") (some true) = false ∧
    enable_caching_flag none none = true ∧
    enable_caching_flag (some "dev") (some false) = false :=
  ⟨(enable_caching_prod_disabled (some "PROD") (some true)).1 (by decide),
   (enable_caching_prod_disabled none none).2 (by decide),
   (enable_caching_prod_disabled (some "dev") (some false)).2 (by decide)⟩

theorem inWindow_congr (g : GroupKey) (w : Nat) {r1 r2 x1 x2 : Txn}
    (hts : r1.tx_ts = r2.tx_ts) (hc : r1.customer_id = r2.customer_id)
    (ht : r1.terminal_id = r2.terminal_id) (hx : AgreePast r1.tx_ts x1 x2) :
    FraudDetector.inWindow g w r1 x1 = FraudDetector.inWindow g w r2 x2 := by
  obtain ⟨e1, e2, e3, _⟩ := hx
  cases g <;>
    simp [FraudDetector.inWindow, GroupKey.keyOf, e1, e2, e3, hts, hc, ht]

theorem windowAmounts_congr (g : GroupKey) (w : Nat) {df1 df2 : List Txn} {r1 r2 : Txn}
    (hdf : List.Forall₂ (AgreePast r1.tx_ts) df1 df2)
    (hts : r1.tx_ts = r2.tx_ts) (hc : r1.customer_id = r2.customer_id)
    (ht : r1.terminal_id = r2.terminal_id) :
    FraudDetector.windowAmounts df1 g w r1 = FraudDetector.windowAmounts df2 g w r2 := by
  induction hdf with
  | nil => rfl
  | @cons x1 x2 l1 l2 hx hrest ih =>
    have hw1 := inWindow_congr g w hts hc ht hx
    simp only [FraudDetector.windowAmounts, List.filter_cons] at ih ⊢
    rw [← hw1]
    by_cases hiw : FraudDetector.inWindow g w r1 x1 = true
    · rw [if_pos hiw, if_pos hiw, List.map_cons, List.map_cons]
      have hlt : x1.tx_ts < r1.tx_ts := by
        simp only [FraudDetector.inWindow, Bool.and_eq_true, decide_eq_true_eq] at hiw
        exact hiw.1.2
      rw [hx.2.2.2 hlt, ih]
    · rw [if_neg hiw, if_neg hiw]
      exact ih

/-- C1: the rolling aggregates that `compute_features` assigns to a row are a
function of rows of the same grouping key strictly before the row's timestamp
only — in a two-run comparison where the second table agrees with the first on
every timestamp and grouping key and may differ in `tx_amount` only on rows
whose timestamp is at or after the observed row's, the observed row's
aggregate cells (every count/mean/max column for both grouping keys and all
windows) are identical across the runs. -/
theorem compute_features_no_future_leakage (df1 df2 : List Txn) (ws : List Nat)
    (r1 r2 : Txn)
    (hdf : List.Forall₂ (AgreePast r1.tx_ts) df1 df2)
    (hts : r1.tx_ts = r2.tx_ts) (hc : r1.customer_id = r2.customer_id)
    (ht : r1.terminal_id = r2.terminal_id) :
    (FraudDetector.compute_features df1 ws
      = df1.map fun r => ⟨r, FraudDetector.rowFeats df1 ws r⟩) ∧
    FraudDetector.rowFeats df1 ws r1 = FraudDetector.rowFeats df2 ws r2 := by
  have hW : ∀ (g : GroupKey) (w : Nat),
      FraudDetector.windowAmounts df1 g w r1 = FraudDetector.windowAmounts df2 g w r2 :=
    fun g w => windowAmounts_congr g w hdf hts hc ht
  exact ⟨rfl, by simp only [FraudDetector.rowFeats, hW]⟩

/-- C1 witness: two three-row runs differing in the amounts of the observed
row itself and of a strictly later row; the observed row's aggregate cells
coincide. -/
theorem compute_features_no_future_leakage_witness :
    FraudDetector.rowFeats [txP, txR, txF] [1] txR
      = FraudDetector.rowFeats [txP, txR2, txF2] [1] txR2 :=
  (compute_features_no_future_leakage [txP, txR, txF] [txP, txR2, txF2] [1] txR txR2
    (.cons ⟨rfl, rfl, rfl, fun _ => rfl⟩
      (.cons ⟨rfl, rfl, rfl, fun h => absurd h (by decide)⟩
        (.cons ⟨rfl, rfl, rfl, fun h => absurd h (by decide)⟩ .nil)))
    rfl rfl rfl).2

/-- C4: feature computation excludes no row (one output per input), every
column of the configured feature-column list is present with a value on every
output row, and a row whose window holds no prior history receives the
zero-filled value 0 for each of its count/mean/max cells. -/
theorem compute_features_no_nulls_zero_fill (df : List Txn) (ws : List Nat) :
    (FraudDetector.compute_features df ws).length = df.length ∧
    (∀ r ∈ FraudDetector.compute_features df ws, ∀ c ∈ FraudDetector.feature_columns ws,
      (FraudDetector.featVal r c).isSome) ∧
    (∀ r ∈ FraudDetector.compute_features df ws, ∀ g : GroupKey, ∀ w ∈ ws, ∀ a : Agg,
      FraudDetector.windowAmounts df g w r.base = [] →
      (colName a w g, (0 : Rat)) ∈ r.feats) := by
  refine ⟨by simp [FraudDetector.compute_features], ?_, ?_⟩
  · intro r hr c hc
    simp only [FraudDetector.compute_features, List.mem_map] at hr
    obtain ⟨x, _, rfl⟩ := hr
    by_cases hca : c = "tx_amount"
    · simp [FraudDetector.featVal, hca]
    · rw [FraudDetector.featVal, if_neg hca]
      rw [FraudDetector.feature_columns] at hc
      rcases List.mem_cons.mp hc with h | h
      · exact absurd h hca
      · have hnames : c ∈ (FraudDetector.rowFeats df ws x).map Prod.fst := by
          rw [rowFeats_names]
          exact h
        obtain ⟨p, hp, hpc⟩ := List.mem_map.mp hnames
        rw [List.lookup_isSome_iff]
        exact ⟨p, hp, by rw [← hpc]; exact beq_self_eq_true p.1⟩
  · intro r hr g w hw a hwin
    simp only [FraudDetector.compute_features, List.mem_map] at hr
    obtain ⟨x, _, rfl⟩ := hr
    simp only at hwin ⊢
    have hmem : (colName a w g,
        FraudDetector.fillZero (FraudDetector.aggRaw a (FraudDetector.windowAmounts df g w x)))
        ∈ FraudDetector.rowFeats df ws x := by
      rw [FraudDetector.rowFeats]
      refine List.mem_flatMap.mpr ⟨g, by cases g <;> simp [groupKeys], ?_⟩
      refine List.mem_flatMap.mpr ⟨w, hw, ?_⟩
      exact List.mem_map.mpr ⟨a, by cases a <;> simp [aggs], rfl⟩
    have hz : FraudDetector.fillZero
        (FraudDetector.aggRaw a (FraudDetector.windowAmounts df g w x)) = 0 := by
      rw [hwin]
      cases a <;> simp [FraudDetector.aggRaw, FraudDetector.fillZero]
    rw [hz] at hmem
    exact hmem

/-- C4 witness: a single-transaction table, whose only row has no prior
history — the average column is present and its zero-filled cell is 0. -/
theorem compute_features_no_nulls_zero_fill_witness :
    (FraudDetector.featVal ⟨txA, FraudDetector.rowFeats [txA] [1] txA⟩
      "avg_tx_amount_1d_customer").isSome ∧
    (colName Agg.avg 1 GroupKey.customer, (0 : Rat))
      ∈ (FraudDetector.rowFeats [txA] [1] txA) :=
  ⟨(compute_features_no_nulls_zero_fill [txA] [1]).2.1
      ⟨txA, FraudDetector.rowFeats [txA] [1] txA⟩ (by decide)
      "avg_tx_amount_1d_customer" (by decide),
   (compute_features_no_nulls_zero_fill [txA] [1]).2.2
      ⟨txA, FraudDetector.rowFeats [txA] [1] txA⟩ (by decide)
      GroupKey.customer 1 (by decide) Agg.avg (by decide)⟩

theorem lookup_filter_ne {l : List (String × Model)} {q path : String} (h : q ≠ path) :
    (l.filter fun f => !(f.1 == path)).lookup q = l.lookup q := by
  induction l with
  | nil => rfl
  | cons kv l ih =>
    obtain ⟨k, v⟩ := kv
    rw [List.filter_cons]
    by_cases hk : k = path
    · subst hk
      have hq : (q == k) = false := beq_eq_false_iff_ne.mpr h
      simp [List.lookup_cons, hq, ih]
    · have hkeep : (!(k == path)) = true := by
        simp [beq_eq_false_iff_ne.mpr hk]
      rw [if_pos hkeep, List.lookup_cons, List.lookup_cons]
      cases hqk : (q == k) <;> simp [hqk, ih]

theorem mem_makedirs (d : String) (ds : List String) : d ∈ makedirs d ds := by
  rw [makedirs]
  split
  · assumption
  · exact List.mem_cons_self d ds

theorem mapE_ok_forall2 {α β : Type} {f : α → Except String β} :
    ∀ (l : List α) (out : List β), mapE f l = .ok out →
      List.Forall₂ (fun x y => f x = .ok y) l out
  | [], out, h => by
    simp only [mapE, Except.ok.injEq] at h
    subst h
    exact .nil
  | x :: xs, out, h => by
    rw [mapE] at h
    cases hfx : f x with
    | error e => rw [hfx] at h; exact absurd h (by simp)
    | ok y =>
      rw [hfx] at h
      cases hrest : mapE f xs with
      | error e => rw [hrest] at h; exact absurd h (by simp)
      | ok ys =>
        rw [hrest] at h
        simp only [Except.ok.injEq] at h
        subst h
        exact .cons hfx (mapE_ok_forall2 xs ys hrest)

theorem forall2_mem_right {α β : Type} {R : α → β → Prop} {l1 : List α} {l2 : List β}
    (h : List.Forall₂ R l1 l2) : ∀ {y}, y ∈ l2 → ∃ x ∈ l1, R x y := by
  induction h with
  | nil => intro y hy; cases hy
  | cons hxy htail ih =>
    intro y hy
    rcases List.mem_cons.mp hy with rfl | hy
    · exact ⟨_, List.mem_cons_self _ _, hxy⟩
    · obtain ⟨x, hx, hr⟩ := ih hy
      exact ⟨x, List.mem_cons_of_mem _ hx, hr⟩

theorem forall2_map_right {α β : Type} {R : α → β → Prop} (g : β → α)
    (hg : ∀ x y, R x y → g y = x) {l1 : List α} {l2 : List β}
    (h : List.Forall₂ R l1 l2) : l2.map g = l1 := by
  induction h with
  | nil => rfl
  | cons hxy htail ih => simp [List.map_cons, hg _ _ hxy, ih]

/-- C6: on a fitted instance, save_model writes exactly one file — the model —
at the given path (all other paths unchanged) into a filesystem whose parent
directory has been created, and load_model from that path restores a state on
which predict is value-for-value identical to the pre-save instance on every
input, and evaluate behaves identically as well. -/
theorem save_load_roundtrip_identical (fd : FraudDetector) (m : Model) (path : String)
    (fs : FileSystem) (h : fd.model = some m) :
    ∃ fs' : FileSystem,
      fd.save_model path fs = .ok fs' ∧
      fs'.files.lookup path = some m ∧
      (∀ q, q ≠ path → fs'.files.lookup q = fs.files.lookup q) ∧
      parentDir path ∈ fs'.dirs ∧
      ∀ fd0 : FraudDetector, ∃ fd' : FraudDetector,
        FraudDetector.load_model fd0 fs' path = .ok fd' ∧
        (∀ (X : List FeatRow) (now : Int) (cols : Option (List String)),
          fd'.predict X now cols = fd.predict X now cols) ∧
        (∀ (X : List FeatRow) (cols : Option (List String)),
          fd'.evaluate X cols = fd.evaluate X cols) := by
  obtain ⟨mo⟩ := fd
  simp only at h
  subst h
  refine ⟨⟨makedirs (parentDir path) fs.dirs,
    (path, m) :: fs.files.filter fun f => !(f.1 == path)⟩, rfl, ?_, ?_, ?_, ?_⟩
  · exact List.lookup_cons_self
  · intro q hq
    rw [List.lookup_cons, beq_eq_false_iff_ne.mpr hq]
    exact lookup_filter_ne hq
  · exact mem_makedirs _ _
  · intro fd0
    refine ⟨⟨some m⟩, ?_, fun X now cols => rfl, fun X cols => rfl⟩
    simp [FraudDetector.load_model]

/-- C6 witness: a concrete fitted detector saved to a concrete path of an
empty filesystem. -/
theorem save_load_roundtrip_identical_witness :
    ∃ fs' : FileSystem,
      FraudDetector.save_model ⟨some modelHalf⟩ "models/model.joblib" ⟨[], []⟩ = .ok fs' ∧
      fs'.files.lookup "models/model.joblib" = some modelHalf ∧
      (∀ q, q ≠ "models/model.joblib" →
        fs'.files.lookup q = (⟨[], []⟩ : FileSystem).files.lookup q) ∧
      parentDir "models/model.joblib" ∈ fs'.dirs ∧
      ∀ fd0 : FraudDetector, ∃ fd' : FraudDetector,
        FraudDetector.load_model fd0 fs' "models/model.joblib" = .ok fd' ∧
        (∀ (X : List FeatRow) (now : Int) (cols : Option (List String)),
          fd'.predict X now cols = FraudDetector.predict ⟨some modelHalf⟩ X now cols) ∧
        (∀ (X : List FeatRow) (cols : Option (List String)),
          fd'.evaluate X cols = FraudDetector.evaluate ⟨some modelHalf⟩ X cols) :=
  save_load_roundtrip_identical ⟨some modelHalf⟩ modelHalf "models/model.joblib" ⟨[], []⟩ rfl

/-- C7: whenever predict succeeds on an input feature table (labels not
required, extra columns tolerated), it produces exactly one scored record per
input row, in order and with the input rows unchanged, and every scored record
carries a fraud_probability in [0, 1], a fraud_prediction of 1 exactly when the
probability reaches the 0.5 threshold (0 otherwise), and the scoring timestamp
it was called with. -/
theorem predict_output_contract (fd : FraudDetector) (m : Model) (df : List FeatRow)
    (now : Int) (cols : Option (List String)) (out : List FraudDetector.Scored)
    (hm : fd.model = some m) (hout : fd.predict df now cols = .ok out) :
    out.length = df.length ∧
    out.map FraudDetector.Scored.row = df ∧
    ∀ s ∈ out,
      (0 ≤ s.fraud_probability ∧ s.fraud_probability ≤ 1) ∧
      (s.fraud_prediction = if (1 : Rat)/2 ≤ s.fraud_probability then 1 else 0) ∧
      s.scored_at = now := by
  simp only [FraudDetector.predict, hm] at hout
  have h2 := mapE_ok_forall2 _ _ hout
  have hrow : ∀ (x : FeatRow) (y : FraudDetector.Scored),
      (match lookupAll (cols.getD m.feature_cols) x.cols with
        | none => Except.error "Missing feature columns"
        | some xs =>
          Except.ok ⟨x, m.scorer.val xs,
            if (1 : Rat)/2 ≤ m.scorer.val xs then 1 else 0, now⟩) = Except.ok y →
      y.row = x ∧ (0 ≤ y.fraud_probability ∧ y.fraud_probability ≤ 1) ∧
        (y.fraud_prediction = if (1 : Rat)/2 ≤ y.fraud_probability then 1 else 0) ∧
        y.scored_at = now := by
    intro x y hy
    cases hlk : lookupAll (cols.getD m.feature_cols) x.cols with
    | none => rw [hlk] at hy; exact absurd hy (by simp)
    | some xs =>
      rw [hlk] at hy
      simp only [Except.ok.injEq] at hy
      subst hy
      exact ⟨rfl, m.scorer.2 xs, rfl, rfl⟩
  refine ⟨h2.length_eq.symm, forall2_map_right _ (fun x y hy => (hrow x y hy).1) h2, ?_⟩
  intro s hs
  obtain ⟨x, _, hfx⟩ := forall2_mem_right h2 hs
  exact (hrow x s hfx).2

/-- C7 witness: a one-row unlabeled table scored by a concrete fitted
detector at timestamp 42. -/
theorem predict_output_contract_witness :
    ∃ out : List FraudDetector.Scored,
      FraudDetector.predict ⟨some modelHalf⟩ [rowA] 42 none = .ok out ∧
      out.map FraudDetector.Scored.row = [rowA] ∧
      ∀ s ∈ out,
        (0 ≤ s.fraud_probability ∧ s.fraud_probability ≤ 1) ∧
        (s.fraud_prediction = if (1 : Rat)/2 ≤ s.fraud_probability then 1 else 0) ∧
        s.scored_at = 42 := by
  refine ⟨_, rfl, ?_, ?_⟩
  · exact (predict_output_contract ⟨some modelHalf⟩ modelHalf [rowA] 42 none _ rfl rfl).2.1
  · exact (predict_output_contract ⟨some modelHalf⟩ modelHalf [rowA] 42 none _ rfl rfl).2.2

/-- C2 witness: a two-row table split at cutoff 3 — the early row lands in
train and satisfies the strict bound, the late row lands in test and satisfies
the non-strict bound. -/
theorem split_temporal_partition_witness :
    ((⟨0, [], none⟩ : FeatRow).tx_ts < 3) ∧ ((3 : Int) ≤ (⟨5, [], none⟩ : FeatRow).tx_ts) :=
  ⟨(split_temporal_partition [⟨0, [], none⟩, ⟨5, [], none⟩] 3).1 ⟨0, [], none⟩ (by decide),
   (split_temporal_partition [⟨0, [], none⟩, ⟨5, [], none⟩] 3).2.1 ⟨5, [], none⟩ (by decide)⟩

/-- C3 witness: on a one-row table with window [1] the generated cells carry
exactly the configured column list, and a concrete successful train call
stores the default column list on the model. -/
theorem feature_columns_count_and_agreement_witness :
    ("tx_amount" :: (FraudDetector.rowFeats [txA] [1] txA).map Prod.fst
      = FraudDetector.feature_columns [1]) ∧
    ∃ m, (⟨some ⟨fitHalf [] {}, FraudDetector.feature_columns⟩⟩ : FraudDetector).model
        = some m ∧
      m.feature_cols = FraudDetector.feature_columns :=
  ⟨feature_columns_count_and_agreement.2.2.2.1 [txA] [1]
      ⟨txA, FraudDetector.rowFeats [txA] [1] txA⟩ (by decide),
   feature_columns_count_and_agreement.2.2.2.2 FraudDetector.new fitHalf [] {} _ rfl⟩

end FraudSpec
